import Mathlib

/-!
Verification of the member-resolution and field-access core of the
quest-hook libil2cpp bridge (src/libil2cpp/src/class.rs,
src/libil2cpp/src/field_info.rs, src/libil2cpp/src/typecheck/callee.rs).

Runtime metadata records are modelled as immutable Lean structures.
The generic host-type capabilities (the Arguments, Parameters, Return and
ThisParameter traits) are modelled by passing their pure matches
predicates as explicit function arguments: the search code in class.rs is
generic over them and only ever calls matches, so every concrete trait
instantiation is one choice of these function arguments.

Rust panics (assert!, unwrap) are modelled by the explicit outcome type
PanicOr: a function that can panic returns PanicOr instead of a bare
value.
-/

namespace QuestHook

/-- A runtime type descriptor (Il2CppType). The search and field-access
code treats it as an opaque token handed to matches predicates, so it is
modelled as an opaque identifier. -/
structure Il2CppType where
  id : Nat
deriving DecidableEq, Repr

/-- A method record (MethodInfo): name, static flag, parameter type list
and return type, exactly the projections the search code in class.rs
reads. -/
structure MethodInfo where
  name : String
  is_static : Bool
  parameters : List Il2CppType
  return_ty : Il2CppType
deriving DecidableEq, Repr

/-- A field record (FieldInfo): name and type, the projections read by
find_field_unchecked and by store/load. -/
structure FieldInfo where
  name : String
  ty : Il2CppType
deriving DecidableEq, Repr

/-- A class record (Il2CppClass): name, namespace, declared methods,
declared fields and an optional parent (null parent pointer = none).
The inductive structure bakes in the acyclicity of the parent chain,
which the spec states as a runtime invariant. -/
inductive Il2CppClass : Type where
  | mk (name : String) (namespaze : String) (methods : List MethodInfo)
      (fields : List FieldInfo) (parent : Option Il2CppClass)

/-- Outcome of a computation that may panic (assert! failure or unwrap of
None/Err in the Rust source). -/
inductive PanicOr (α : Type) where
  | panicked
  | ok (val : α)
deriving DecidableEq, Repr

namespace Il2CppClass

/-- Accessor Il2CppClass::name. -/
def name : Il2CppClass → String
  | .mk n _ _ _ _ => n

/-- Accessor Il2CppClass::namespace. -/
def namespaze : Il2CppClass → String
  | .mk _ ns _ _ _ => ns

/-- Accessor Il2CppClass::methods (the declared method list). -/
def methods : Il2CppClass → List MethodInfo
  | .mk _ _ ms _ _ => ms

/-- Accessor Il2CppClass::fields (the declared field list). -/
def fields : Il2CppClass → List FieldInfo
  | .mk _ _ _ fs _ => fs

/-- Accessor Il2CppClass::parent. -/
def parent : Il2CppClass → Option Il2CppClass
  | .mk _ _ _ _ p => p

/-- Depth of the (acyclic) parent chain: 0 for a class with no parent. -/
def depth : Il2CppClass → Nat
  | .mk _ _ _ _ none => 0
  | .mk _ _ _ _ (some p) => p.depth + 1

/-- The class itself followed by its ancestors in parent order: the list
of classes the Hierarchy iterator yields. -/
def hierarchyList : Il2CppClass → List Il2CppClass
  | .mk n ns ms fs none => [.mk n ns ms fs none]
  | .mk n ns ms fs (some p) => .mk n ns ms fs (some p) :: p.hierarchyList

end Il2CppClass

/-- The Hierarchy iterator state from class.rs: an optional current
class. -/
structure Hierarchy where
  current : Option Il2CppClass

/-- One step of `impl Iterator for Hierarchy`: yield the current class
and move current to its parent; once exhausted keep yielding none. -/
def Hierarchy.next (h : Hierarchy) : Option Il2CppClass × Hierarchy :=
  match h.current with
  | some c => (some c, ⟨c.parent⟩)
  | none => (none, ⟨none⟩)

/-- Il2CppClass::hierarchy: a fresh iterator whose current entry is the
class itself. -/
def Il2CppClass.hierarchy (c : Il2CppClass) : Hierarchy :=
  ⟨some c⟩

/-- The list of outputs of n successive next calls on a Hierarchy
iterator. -/
def Hierarchy.yields : Hierarchy → Nat → List (Option Il2CppClass)
  | _, 0 => []
  | h, n + 1 =>
    match h.next with
    | (o, h2) => o :: h2.yields n

/-- Per-level unique-match resolution shared by find_method,
find_method_callee and find_method_unchecked in class.rs: filter each
level by the predicate; zero matches, continue to the next level; exactly
one match, return it; two or more, return none. -/
def resolveUnique (pred : MethodInfo → Bool) : List (List MethodInfo) → Option MethodInfo
  | [] => none
  | ms :: rest =>
    match ms.filter pred with
    | [] => resolveUnique pred rest
    | [mi] => some mi
    | _ => none

/-- Il2CppClass::find_method: walk the hierarchy applying per-level
unique-match resolution with the name, argument and return matches
predicates (aM abstracts A::matches on the parameter list, rM abstracts
R::matches on the return type). -/
def Il2CppClass.find_method (c : Il2CppClass) (name : String)
    (aM : List Il2CppType → Bool) (rM : Il2CppType → Bool) : Option MethodInfo :=
  resolveUnique
    (fun mi => mi.name == name && aM mi.parameters && rM mi.return_ty)
    (c.hierarchyList.map Il2CppClass.methods)

/-- Il2CppClass::find_method_callee: like find_method but the filter also
evaluates the this-parameter capability predicate tM on the whole method
record (T::matches(mi)). -/
def Il2CppClass.find_method_callee (c : Il2CppClass) (name : String)
    (tM : MethodInfo → Bool) (pM : List Il2CppType → Bool)
    (rM : Il2CppType → Bool) : Option MethodInfo :=
  resolveUnique
    (fun mi => mi.name == name && tM mi && pM mi.parameters && rM mi.return_ty)
    (c.hierarchyList.map Il2CppClass.methods)

/-- ThisParameter for (): matches holds exactly when the method is
static (typecheck/callee.rs). -/
def unitThisMatches (mi : MethodInfo) : Bool :=
  mi.is_static

/-- The name+static+signature filter of Il2CppClass::find_method_static,
applied to the class's own declared methods only. -/
def staticFilter (c : Il2CppClass) (name : String)
    (aM : List Il2CppType → Bool) (rM : Il2CppType → Bool) : List MethodInfo :=
  c.methods.filter
    (fun mi => mi.name == name && mi.is_static && aM mi.parameters && rM mi.return_ty)

/-- Il2CppClass::find_method_static: single-level unique-match over the
class's own declared methods, additionally requiring the static flag. -/
def Il2CppClass.find_method_static (c : Il2CppClass) (name : String)
    (aM : List Il2CppType → Bool) (rM : Il2CppType → Bool) : Option MethodInfo :=
  match staticFilter c name aM rM with
  | [mi] => some mi
  | _ => none

/-- Il2CppClass::find_field_unchecked: walk the hierarchy; at each level
take the first declared field whose name matches, continuing to the
parent only when the level has none. -/
def firstAtLevels (pred : FieldInfo → Bool) : List (List FieldInfo) → Option FieldInfo
  | [] => none
  | fs :: rest =>
    match fs.filter pred with
    | [] => firstAtLevels pred rest
    | fi :: _ => some fi

/-- Il2CppClass::find_field_unchecked from class.rs. -/
def Il2CppClass.find_field_unchecked (c : Il2CppClass) (name : String) : Option FieldInfo :=
  firstAtLevels (fun fi => fi.name == name) (c.hierarchyList.map Il2CppClass.fields)

/-- Il2CppClass::invoke: resolve by static search, unwrap the result
(panicking on none), then delegate to MethodInfo::invoke_unchecked with a
unit receiver. invoke_unchecked lives outside the analysed sources; per
its signature in class.rs it is abstracted as a function returning
Except, the error carrying the managed exception. -/
def Il2CppClass.invoke {A R E : Type} (c : Il2CppClass) (name : String)
    (aM : List Il2CppType → Bool) (rM : Il2CppType → Bool)
    (invoke_unchecked : MethodInfo → A → Except E R) (args : A) : PanicOr (Except E R) :=
  match c.find_method_static name aM rM with
  | none => .panicked
  | some m => .ok (invoke_unchecked m args)

/-- Outcome of a raw-record accessor: a returned value, a failed
assert!, or undefined behavior (a raw dereference with no null check). -/
inductive AccessOutcome (α : Type) where
  | ok (val : α)
  | assertionFailed
  | undefinedBehavior

/-- The raw Il2CppClass record as the accessors in class.rs see it: every
pointer field is nullable (none models a null pointer). -/
structure RawIl2CppClass where
  name : Option String
  namespaze : Option String
  methods : Option (List MethodInfo)
  fields : Option (List FieldInfo)
  implementedInterfaces : Option (List Il2CppClass)
  nestedTypes : Option (List Il2CppClass)

/-- The raw FieldInfo record: nullable name pointer. -/
structure RawFieldInfo where
  name : Option String

/-- Il2CppClass::name: assert the name pointer is non-null, then read the
C string. -/
def RawIl2CppClass.nameAcc (c : RawIl2CppClass) : AccessOutcome String :=
  match c.name with
  | none => .assertionFailed
  | some s => .ok s

/-- Il2CppClass::namespace: assert non-null, then read. -/
def RawIl2CppClass.namespazeAcc (c : RawIl2CppClass) : AccessOutcome String :=
  match c.namespaze with
  | none => .assertionFailed
  | some s => .ok s

/-- Il2CppClass::methods: a null method-array pointer yields the empty
slice; no assertion in the source. -/
def RawIl2CppClass.methodsAcc (c : RawIl2CppClass) : AccessOutcome (List MethodInfo) :=
  match c.methods with
  | none => .ok []
  | some l => .ok l

/-- Il2CppClass::fields: a null field-array pointer yields the empty
slice; no assertion in the source. -/
def RawIl2CppClass.fieldsAcc (c : RawIl2CppClass) : AccessOutcome (List FieldInfo) :=
  match c.fields with
  | none => .ok []
  | some l => .ok l

/-- Il2CppClass::implemented_interfaces: a null pointer yields the empty
slice; no assertion in the source. -/
def RawIl2CppClass.implementedInterfacesAcc (c : RawIl2CppClass) : AccessOutcome (List Il2CppClass) :=
  match c.implementedInterfaces with
  | none => .ok []
  | some l => .ok l

/-- Il2CppClass::nested_types: the source builds the slice with no null
check at all, so a null pointer is a raw dereference (undefined
behavior), not an assertion. -/
def RawIl2CppClass.nestedTypesAcc (c : RawIl2CppClass) : AccessOutcome (List Il2CppClass) :=
  match c.nestedTypes with
  | none => .undefinedBehavior
  | some l => .ok l

/-- FieldInfo::name: assert the name pointer is non-null, then read. -/
def RawFieldInfo.nameAcc (f : RawFieldInfo) : AccessOutcome String :=
  match f.name with
  | none => .assertionFailed
  | some s => .ok s

/-- FieldInfo::store_unchecked: delegate directly to the raw
field_set_value primitive (abstracted as a state transformer, as it lives
behind the C ABI). -/
def store_unchecked {V S : Type} (field_set_value : FieldInfo → V → S → S)
    (fi : FieldInfo) (st : S) (val : V) : S :=
  field_set_value fi val st

/-- FieldInfo::store: assert that the argument capability matches the
field type, then delegate to store_unchecked. -/
def FieldInfo.store {V S : Type} (aM : Il2CppType → Bool)
    (field_set_value : FieldInfo → V → S → S) (fi : FieldInfo) (st : S) (val : V) : PanicOr S :=
  if aM fi.ty then .ok (store_unchecked field_set_value fi st val) else .panicked

/-- FieldInfo::load_unchecked: delegate directly to the raw
field_get_value primitive followed by the return conversion (abstracted
together as one function). -/
def load_unchecked {V S : Type} (field_get_value : FieldInfo → S → V)
    (fi : FieldInfo) (st : S) : V :=
  field_get_value fi st

/-- FieldInfo::load: assert that the return capability matches the field
type, then delegate to load_unchecked. -/
def FieldInfo.load {V S : Type} (rM : Il2CppType → Bool)
    (field_get_value : FieldInfo → S → V) (fi : FieldInfo) (st : S) : PanicOr V :=
  if rM fi.ty then .ok (load_unchecked field_get_value fi st) else .panicked

/-- ThisParameter for Option of a mutable reference to T: matches
delegates to T's this-parameter predicate. -/
def optionMutThisMatches (matches_this_parameter : MethodInfo → Bool) (mi : MethodInfo) : Bool :=
  matches_this_parameter mi

/-- ThisParameter for a mutable reference to T: matches delegates to T's
this-parameter predicate. -/
def mutThisMatches (matches_this_parameter : MethodInfo → Bool) (mi : MethodInfo) : Bool :=
  matches_this_parameter mi

/-- Parameter for Option of a mutable reference to T: matches delegates
to T's reference-parameter predicate. -/
def optionMutParameterMatches (matches_reference_parameter : Il2CppType → Bool) (ty : Il2CppType) : Bool :=
  matches_reference_parameter ty

/-- Parameter for a mutable reference to T: matches delegates to T's
reference-parameter predicate. -/
def mutParameterMatches (matches_reference_parameter : Il2CppType → Bool) (ty : Il2CppType) : Bool :=
  matches_reference_parameter ty

/-- Return for Option of a mutable reference to T: matches delegates to
T's reference-return predicate. -/
def optionMutReturnMatches (matches_reference_return : Il2CppType → Bool) (ty : Il2CppType) : Bool :=
  matches_reference_return ty

/-- Return for a mutable reference to T: matches delegates to T's
reference-return predicate. -/
def mutReturnMatches (matches_reference_return : Il2CppType → Bool) (ty : Il2CppType) : Bool :=
  matches_reference_return ty

/-- from_actual of the always-non-null reference form: unwrap the
nullable actual, panicking on none. -/
def mutFromActual {α : Type} : Option α → PanicOr α
  | some x => .ok x
  | none => .panicked

/-- from_actual of the nullable reference form: the identity. -/
def optionMutFromActual {α : Type} (actual : Option α) : Option α :=
  actual

/-- Return for Result of T and E: matches delegates to T's matches. -/
def resultReturnMatches (tMatches : Il2CppType → Bool) (ty : Il2CppType) : Bool :=
  tMatches ty

/-- Return for Result: from_actual wraps T's from_actual in Ok. -/
def resultFromActual {Act T E : Type} (tFromActual : Act → T) (actual : Act) : Except E T :=
  .ok (tFromActual actual)

/-- Return for Result: into_actual unwraps self (panicking on Err) and
then applies T's into_actual. -/
def resultIntoActual {Act T E : Type} (tIntoActual : T → Act) : Except E T → PanicOr Act
  | .ok t => .ok (tIntoActual t)
  | .error _ => .panicked

/-- Instance search as the spec words it: find the first hierarchy level
whose filtered candidate list is non-empty; succeed with its sole element
when that list is a singleton, fail otherwise. -/
def instanceSearchSpec (pred : MethodInfo → Bool) (levels : List (List MethodInfo)) : Option MethodInfo :=
  match (levels.map (List.filter pred)).find? (fun l => !l.isEmpty) with
  | some [mi] => some mi
  | _ => none

/-- Field search as the spec words it: find the first hierarchy level
containing a field of the requested name and return the first such field
in declaration order; no ambiguity failure. -/
def fieldSearchSpec (pred : FieldInfo → Bool) (levels : List (List FieldInfo)) : Option FieldInfo :=
  match (levels.map (List.filter pred)).find? (fun l => !l.isEmpty) with
  | some (fi :: _) => some fi
  | _ => none

/-- A sample primitive type token. -/
def tyInt : Il2CppType :=
  ⟨1⟩

/-- A sample static method Add(int, int): int. -/
def addStatic : MethodInfo :=
  ⟨"Add", true, [tyInt, tyInt], tyInt⟩

/-- A sample instance method Add(int, int): int. -/
def addInstance : MethodInfo :=
  ⟨"Add", false, [tyInt, tyInt], tyInt⟩

/-- A sample parentless class Bar.Foo declaring both Add methods and one
field. -/
def fooClass : Il2CppClass :=
  .mk "Foo" "Bar" [addStatic, addInstance] [⟨"x", tyInt⟩] none

/-- An always-true argument-list predicate. -/
def anyAM : List Il2CppType → Bool :=
  fun _ => true

/-- An always-true type predicate. -/
def anyRM : Il2CppType → Bool :=
  fun _ => true

/-- A sample invoke_unchecked returning Ok 5. -/
def constInvoker : MethodInfo → Unit → Except Unit Nat :=
  fun _ _ => .ok 5

/-- A raw class record whose member-array pointers are all null but whose
name pointers are populated. -/
def nullArraysRaw : RawIl2CppClass :=
  ⟨some "Foo", some "Bar", none, none, none, none⟩

/-- A raw class record with a null name pointer. -/
def nullNameRaw : RawIl2CppClass :=
  ⟨none, none, some [], some [], some [], some []⟩

/-- A raw field record with a populated name pointer. -/
def namedFieldRaw : RawFieldInfo :=
  ⟨some "x"⟩

/-- A raw field record with a null name pointer. -/
def nullFieldRaw : RawFieldInfo :=
  ⟨none⟩

/-- An always-false type predicate. -/
def noRM : Il2CppType → Bool :=
  fun _ => false

/-- A sample field record x: int. -/
def xField : FieldInfo :=
  ⟨"x", tyInt⟩

/-- A sample raw field_set_value primitive over a Nat-valued cell. -/
def natSet : FieldInfo → Nat → Nat → Nat :=
  fun _ v _ => v

/-- A sample raw field_get_value primitive over a Nat-valued cell. -/
def natGet : FieldInfo → Nat → Nat :=
  fun _ s => s

/-!
Helper lemmas shared by the claim theorems.
-/

/-- The hierarchy list has length depth + 1. -/
theorem hierarchyList_length (c : Il2CppClass) : c.hierarchyList.length = c.depth + 1 := by
  induction c using Il2CppClass.hierarchyList.induct <;>
    simp [Il2CppClass.hierarchyList, Il2CppClass.depth, *]

/-- The hierarchy list starts with the class itself. -/
theorem hierarchyList_head (c : Il2CppClass) : c.hierarchyList.head? = some c := by
  cases c with
  | mk n ns ms fs p => cases p <;> simp [Il2CppClass.hierarchyList]

/-- Each entry of the hierarchy list is followed by its parent. -/
theorem hierarchyList_chain (c : Il2CppClass) :
    List.Chain' (fun a b => a.parent = some b) c.hierarchyList := by
  induction c using Il2CppClass.hierarchyList.induct with
  | case1 n ns ms fs => simp [Il2CppClass.hierarchyList]
  | case2 n ns ms fs p ih =>
    rw [Il2CppClass.hierarchyList, List.chain'_cons']
    refine ⟨fun b hb => ?_, ih⟩
    rw [hierarchyList_head] at hb
    simp only [Option.mem_def, Option.some_inj] at hb
    subst hb
    simp [Il2CppClass.parent]

/-- An exhausted hierarchy iterator yields none forever. -/
theorem yields_of_none (k : Nat) :
    Hierarchy.yields ⟨none⟩ k = List.replicate k none := by
  induction k with
  | zero => rfl
  | succ k ih => simp [Hierarchy.yields, Hierarchy.next, ih, List.replicate_succ]

/-- Running the hierarchy iterator depth + 1 + k steps yields the whole
hierarchy list and then k nones. -/
theorem yields_hierarchy (c : Il2CppClass) (k : Nat) :
    Hierarchy.yields ⟨some c⟩ (c.depth + 1 + k) =
      c.hierarchyList.map some ++ List.replicate k none := by
  rw [show c.depth + 1 + k = (c.depth + k) + 1 from by omega]
  induction c using Il2CppClass.hierarchyList.induct with
  | case1 n ns ms fs =>
    simp [Hierarchy.yields, Hierarchy.next, Il2CppClass.parent, Il2CppClass.depth,
      Il2CppClass.hierarchyList, yields_of_none]
  | case2 n ns ms fs p ih =>
    simp only [Hierarchy.yields, Hierarchy.next, Il2CppClass.parent]
    rw [show Il2CppClass.depth (.mk n ns ms fs (some p)) + k = (p.depth + k) + 1 from by
      simp [Il2CppClass.depth]; omega]
    rw [ih]
    simp [Il2CppClass.hierarchyList]

/-- The per-level unique-match loop computes exactly the spec's
first-non-empty-level rule. -/
theorem resolveUnique_eq_spec (pred : MethodInfo → Bool) (levels : List (List MethodInfo)) :
    resolveUnique pred levels = instanceSearchSpec pred levels := by
  induction levels with
  | nil => rfl
  | cons ms rest ih =>
    simp only [resolveUnique, instanceSearchSpec, List.map_cons]
    cases h : ms.filter pred with
    | nil =>
      rw [ih, instanceSearchSpec]
      simp [h]
    | cons a t =>
      cases t with
      | nil => simp [h, List.find?_cons]
      | cons b t2 => simp [h, List.find?_cons]

/-- A method returned by the unique-match loop satisfies the filter
predicate. -/
theorem resolveUnique_pred_of_some (pred : MethodInfo → Bool)
    (levels : List (List MethodInfo)) (mi : MethodInfo)
    (h : resolveUnique pred levels = some mi) : pred mi = true := by
  induction levels with
  | nil => simp [resolveUnique] at h
  | cons ms rest ih =>
    rw [resolveUnique] at h
    split at h
    · exact ih h
    · next mi2 heq =>
      have hmem : mi2 ∈ ms.filter pred := by
        rw [heq]
        exact List.mem_singleton_self mi2
      have hmi : mi2 = mi := by
        simpa using h
      subst hmi
      exact (List.mem_filter.mp hmem).2
    · exact absurd h (by simp)

/-- Claim C1: for every class, method name and host-typed signature,
find_method walks the hierarchy (the class itself, then ancestors in
order, as listed by hierarchyList) and returns a method if and only if
exactly one candidate at the first hierarchy level with at least one
matching candidate matches the name and signature; a level with two or
more matches yields none regardless of ancestor content, and levels with
zero matching candidates are skipped — exactly the spec-side
instanceSearchSpec rule. -/
theorem claim_C1_find_method_unique_per_level (c : Il2CppClass) (name : String)
    (aM : List Il2CppType → Bool) (rM : Il2CppType → Bool) :
    c.find_method name aM rM =
      instanceSearchSpec (fun mi => mi.name == name && aM mi.parameters && rM mi.return_ty)
        (c.hierarchyList.map Il2CppClass.methods) :=
  resolveUnique_eq_spec _ _

/-- Claim C7: hierarchy() is a fresh iterator starting at the class
itself; on an acyclic parent chain of depth D it yields exactly the D + 1
hierarchy entries — the first being the class, each next entry the
previous one's parent — and afterwards yields none forever. -/
theorem claim_C7_hierarchy_terminates (c : Il2CppClass) (k : Nat) :
    (Il2CppClass.hierarchy c).current = some c ∧
    (Il2CppClass.hierarchy c).yields (c.depth + 1 + k) =
      c.hierarchyList.map some ++ List.replicate k none ∧
    c.hierarchyList.length = c.depth + 1 ∧
    c.hierarchyList.head? = some c ∧
    List.Chain' (fun a b => a.parent = some b) c.hierarchyList :=
  ⟨rfl, yields_hierarchy c k, hierarchyList_length c, hierarchyList_head c,
    hierarchyList_chain c⟩

/-- Claim C2: find_method_static examines only the class's own declared
methods, succeeds exactly when the name+static+signature filter over them
is a singleton, never returns a non-static method, and is insensitive to
anything but the declared method list (no hierarchy walk). -/
theorem claim_C2_find_method_static_own_level (c : Il2CppClass) (name : String)
    (aM : List Il2CppType → Bool) (rM : Il2CppType → Bool) :
    (∀ mi, c.find_method_static name aM rM = some mi ↔ staticFilter c name aM rM = [mi]) ∧
    (∀ mi, c.find_method_static name aM rM = some mi → mi.is_static = true) ∧
    (∀ c2 : Il2CppClass, c2.methods = c.methods →
      c2.find_method_static name aM rM = c.find_method_static name aM rM) := by
  have hiff : ∀ mi, c.find_method_static name aM rM = some mi ↔
      staticFilter c name aM rM = [mi] := by
    intro mi
    constructor
    · intro h
      rw [Il2CppClass.find_method_static] at h
      split at h
      · next mi2 heq =>
        rw [Option.some_inj] at h
        rw [← h]
        exact heq
      · exact absurd h (by simp)
    · intro h
      rw [Il2CppClass.find_method_static, h]
  refine ⟨hiff, fun mi h => ?_, fun c2 h2 => ?_⟩
  · have hmem : mi ∈ staticFilter c name aM rM := by
      rw [(hiff mi).mp h]
      exact List.mem_singleton_self mi
    have hp := (List.mem_filter.mp hmem).2
    simp only [Bool.and_eq_true] at hp
    exact hp.1.1.2
  · rw [Il2CppClass.find_method_static, Il2CppClass.find_method_static,
      staticFilter, staticFilter, h2]

/-- Witness for claim C2 on the concrete class Bar.Foo: static search for
Add returns the static overload and it is flagged static. -/
theorem claim_C2_witness :
    fooClass.find_method_static "Add" anyAM anyRM = some addStatic ∧
    addStatic.is_static = true :=
  ⟨by decide,
    (claim_C2_find_method_static_own_level fooClass "Add" anyAM anyRM).2.1 addStatic
      (by decide)⟩

/-- Claim C3: find_method_callee only returns methods on which the
this-parameter capability's matches predicate holds; with the unit
this-capability (whose predicate is exactly is_static) only static
methods can be returned. -/
theorem claim_C3_callee_this_gating (c : Il2CppClass) (name : String)
    (tM : MethodInfo → Bool) (pM : List Il2CppType → Bool) (rM : Il2CppType → Bool) :
    (∀ mi, c.find_method_callee name tM pM rM = some mi → tM mi = true) ∧
    (∀ mi, c.find_method_callee name unitThisMatches pM rM = some mi →
      mi.is_static = true) := by
  constructor
  · intro mi h
    have hp := resolveUnique_pred_of_some _ _ _ h
    simp only [Bool.and_eq_true] at hp
    exact hp.1.1.2
  · intro mi h
    have hp := resolveUnique_pred_of_some _ _ _ h
    simp only [Bool.and_eq_true, unitThisMatches] at hp
    exact hp.1.1.2

/-- Witness for claim C3 on the concrete class Bar.Foo: callee search for
Add with the unit this-capability returns the static overload and it is
flagged static. -/
theorem claim_C3_witness :
    fooClass.find_method_callee "Add" unitThisMatches anyAM anyRM = some addStatic ∧
    addStatic.is_static = true :=
  ⟨by decide,
    (claim_C3_callee_this_gating fooClass "Add" unitThisMatches anyAM anyRM).2 addStatic
      (by decide)⟩

/-- The first-match field loop computes exactly the spec's
first-non-empty-level, first-in-declaration-order rule. -/
theorem firstAtLevels_eq_spec (pred : FieldInfo → Bool) (levels : List (List FieldInfo)) :
    firstAtLevels pred levels = fieldSearchSpec pred levels := by
  induction levels with
  | nil => rfl
  | cons fs rest ih =>
    simp only [firstAtLevels, fieldSearchSpec, List.map_cons]
    cases h : fs.filter pred with
    | nil =>
      rw [ih, fieldSearchSpec]
      simp [h]
    | cons fi t => simp [h, List.find?_cons]

/-- The first-match field loop fails exactly when no level holds a field
satisfying the predicate. -/
theorem firstAtLevels_eq_none_iff (pred : FieldInfo → Bool) (levels : List (List FieldInfo)) :
    firstAtLevels pred levels = none ↔ ∀ l ∈ levels, ∀ fi ∈ l, pred fi = false := by
  induction levels with
  | nil => simp [firstAtLevels]
  | cons fs rest ih =>
    rw [firstAtLevels]
    cases h : fs.filter pred with
    | nil =>
      rw [ih]
      simp only [List.mem_cons]
      constructor
      · rintro hr l (rfl | hl) fi hfi
        · have := List.filter_eq_nil_iff.mp h fi hfi
          simpa using this
        · exact hr l hl fi hfi
      · intro hr l hl fi hfi
        exact hr l (Or.inr hl) fi hfi
    | cons fi t =>
      constructor
      · intro hr
        exact absurd hr (by simp)
      · intro hr
        have hmem : fi ∈ fs.filter pred := by
          rw [h]
          exact List.mem_cons_self fi t
        have hp := (List.mem_filter.mp hmem).2
        have hfalse := hr fs (List.mem_cons_self fs rest) fi (List.mem_filter.mp hmem).1
        rw [hp] at hfalse
        exact absurd hfalse (by simp)

/-- Claim C8: find_field_unchecked walks the hierarchy level by level and
at the first level containing a field of the requested name returns the
first such field in declaration order, with no ambiguity failure; it
returns none exactly when no level declares a field of that name. -/
theorem claim_C8_find_field_first_match (c : Il2CppClass) (name : String) :
    (c.find_field_unchecked name =
      fieldSearchSpec (fun fi => fi.name == name) (c.hierarchyList.map Il2CppClass.fields)) ∧
    (c.find_field_unchecked name = none ↔
      ∀ cls ∈ c.hierarchyList, ∀ fi ∈ cls.fields, (fi.name == name) = false) := by
  constructor
  · exact firstAtLevels_eq_spec _ _
  · rw [Il2CppClass.find_field_unchecked, firstAtLevels_eq_none_iff]
    constructor
    · intro h cls hcls fi hfi
      exact h _ (List.mem_map_of_mem _ hcls) fi hfi
    · intro h l hl fi hfi
      obtain ⟨cls, hcls, rfl⟩ := List.mem_map.mp hl
      exact h cls hcls fi hfi

/-- Witness for claim C8 on the concrete class Bar.Foo: searching for the
declared field x succeeds as the spec rule dictates, and searching for an
undeclared name y returns none, which by the claim means no hierarchy
level declares y. -/
theorem claim_C8_witness :
    fooClass.find_field_unchecked "x" =
      fieldSearchSpec (fun fi => fi.name == "x")
        (fooClass.hierarchyList.map Il2CppClass.fields) ∧
    ∀ cls ∈ fooClass.hierarchyList, ∀ fi ∈ cls.fields, (fi.name == "y") = false :=
  ⟨(claim_C8_find_field_first_match fooClass "x").1,
    ((claim_C8_find_field_first_match fooClass "y").2).mp (by decide)⟩

/-- Claim C4 counterexample: on a raw class whose member-array pointers
are null, the methods accessor returns the empty slice — a value — and
does not fail with an assertion as the claim states; fields and
implemented-interfaces behave the same, and nested-types performs a raw
dereference with no check at all. -/
theorem claim_C4_counterexample :
    nullArraysRaw.methods = none ∧
    nullArraysRaw.methodsAcc = AccessOutcome.ok [] ∧
    ((nullArraysRaw.methodsAcc = AccessOutcome.assertionFailed) = False) ∧
    nullArraysRaw.fieldsAcc = AccessOutcome.ok [] ∧
    nullArraysRaw.implementedInterfacesAcc = AccessOutcome.ok [] ∧
    nullArraysRaw.nestedTypesAcc = AccessOutcome.undefinedBehavior := by
  refine ⟨rfl, rfl, ?_, rfl, rfl, rfl⟩
  simp [nullArraysRaw, RawIl2CppClass.methodsAcc]

/-- Claim C4 as amended: a null name pointer on a class or field makes
the name accessor fail its assertion, and a populated name pointer makes
it return the pointed-to string; but a null methods, fields or
implemented-interfaces array pointer makes the accessor return the empty
slice (a value, no assertion), and the nested-types accessor performs no
null check at all (a null pointer there is a raw dereference, undefined
behavior). -/
theorem claim_C4_amended_null_handling (c : RawIl2CppClass) (f : RawFieldInfo) :
    (c.name = none → c.nameAcc = AccessOutcome.assertionFailed) ∧
    (∀ s, c.name = some s → c.nameAcc = AccessOutcome.ok s) ∧
    (c.namespaze = none → c.namespazeAcc = AccessOutcome.assertionFailed) ∧
    (f.name = none → f.nameAcc = AccessOutcome.assertionFailed) ∧
    (∀ s, f.name = some s → f.nameAcc = AccessOutcome.ok s) ∧
    (c.methods = none → c.methodsAcc = AccessOutcome.ok []) ∧
    (c.fields = none → c.fieldsAcc = AccessOutcome.ok []) ∧
    (c.implementedInterfaces = none → c.implementedInterfacesAcc = AccessOutcome.ok []) ∧
    (c.nestedTypes = none → c.nestedTypesAcc = AccessOutcome.undefinedBehavior) := by
  refine ⟨fun h => ?_, fun s h => ?_, fun h => ?_, fun h => ?_, fun s h => ?_,
    fun h => ?_, fun h => ?_, fun h => ?_, fun h => ?_⟩ <;>
    simp [RawIl2CppClass.nameAcc, RawIl2CppClass.namespazeAcc, RawFieldInfo.nameAcc,
      RawIl2CppClass.methodsAcc, RawIl2CppClass.fieldsAcc,
      RawIl2CppClass.implementedInterfacesAcc, RawIl2CppClass.nestedTypesAcc, h]

/-- Witness for the amended claim C4 at concrete raw records: a null
class name asserts, a populated one is returned, a null field name
asserts, a populated one is returned, null member arrays come back as
empty slices and null nested types is the unchecked raw dereference. -/
theorem claim_C4_witness :
    nullNameRaw.nameAcc = AccessOutcome.assertionFailed ∧
    nullArraysRaw.nameAcc = AccessOutcome.ok "Foo" ∧
    nullFieldRaw.nameAcc = AccessOutcome.assertionFailed ∧
    namedFieldRaw.nameAcc = AccessOutcome.ok "x" ∧
    nullArraysRaw.methodsAcc = AccessOutcome.ok [] ∧
    nullArraysRaw.nestedTypesAcc = AccessOutcome.undefinedBehavior :=
  ⟨(claim_C4_amended_null_handling nullNameRaw nullFieldRaw).1 rfl,
    (claim_C4_amended_null_handling nullArraysRaw nullFieldRaw).2.1 "Foo" rfl,
    (claim_C4_amended_null_handling nullNameRaw nullFieldRaw).2.2.2.1 rfl,
    (claim_C4_amended_null_handling nullNameRaw namedFieldRaw).2.2.2.2.1 "x" rfl,
    (claim_C4_amended_null_handling nullArraysRaw nullFieldRaw).2.2.2.2.2.1 rfl,
    (claim_C4_amended_null_handling nullArraysRaw nullFieldRaw).2.2.2.2.2.2.2.2 rfl⟩

/-- Claim C5: invoke resolves via the static search and panics exactly
when that search does not yield a unique matching static method (the
singleton-filter criterion); when resolution succeeds it returns the
delegated invocation result, whose Except error channel carries the
managed exception — so lookup failure (panic) and managed exception
(error value) travel through distinct channels. -/
theorem claim_C5_invoke_channels {A R E : Type} (c : Il2CppClass) (name : String)
    (aM : List Il2CppType → Bool) (rM : Il2CppType → Bool)
    (invoke_unchecked : MethodInfo → A → Except E R) (args : A) :
    (c.find_method_static name aM rM = none →
      c.invoke name aM rM invoke_unchecked args = PanicOr.panicked) ∧
    ((∀ mi, staticFilter c name aM rM ≠ [mi]) →
      c.invoke name aM rM invoke_unchecked args = PanicOr.panicked) ∧
    (∀ m, c.find_method_static name aM rM = some m →
      c.invoke name aM rM invoke_unchecked args =
        PanicOr.ok (invoke_unchecked m args)) := by
  have hnone : (∀ mi, staticFilter c name aM rM ≠ [mi]) →
      c.find_method_static name aM rM = none := by
    intro h
    rw [Il2CppClass.find_method_static]
    split
    · next mi heq => exact absurd heq (h mi)
    · rfl
  refine ⟨fun h => ?_, fun h => ?_, fun m h => ?_⟩
  · rw [Il2CppClass.invoke, h]
  · rw [Il2CppClass.invoke, hnone h]
  · rw [Il2CppClass.invoke, h]

/-- Witness for claim C5 on the concrete class Bar.Foo: invoking a
missing name panics, invoking Add returns the delegated invocation
result in the ok channel. -/
theorem claim_C5_witness :
    fooClass.invoke "Missing" anyAM anyRM constInvoker () = PanicOr.panicked ∧
    fooClass.invoke "Add" anyAM anyRM constInvoker () =
      PanicOr.ok (constInvoker addStatic ()) :=
  ⟨(claim_C5_invoke_channels fooClass "Missing" anyAM anyRM constInvoker ()).1 (by decide),
    (claim_C5_invoke_channels fooClass "Add" anyAM anyRM constInvoker ()).2.2 addStatic
      (by decide)⟩

/-- Claim C6: for every runtime type descriptor the always-non-null
reference form has exactly the same matches predicate as its nullable
counterpart in the this-parameter, parameter and return roles, and
converting an actual null (none) into the non-null form panics at unwrap
time while the nullable form passes it through. -/
theorem claim_C6_nonnull_matches_eq_nullable {α : Type} (tThis : MethodInfo → Bool)
    (tRefParam tRefReturn : Il2CppType → Bool) (mi : MethodInfo) (ty : Il2CppType) (x : α) :
    mutThisMatches tThis mi = optionMutThisMatches tThis mi ∧
    mutParameterMatches tRefParam ty = optionMutParameterMatches tRefParam ty ∧
    mutReturnMatches tRefReturn ty = optionMutReturnMatches tRefReturn ty ∧
    mutFromActual (none : Option α) = PanicOr.panicked ∧
    mutFromActual (some x) = PanicOr.ok x ∧
    optionMutFromActual (none : Option α) = none :=
  ⟨rfl, rfl, rfl, rfl, rfl, rfl⟩

/-- Claim C9: the typed store and load check the capability's matches
predicate against the field's type before touching the raw primitive —
when the predicate is false they panic and the result does not depend on
the primitive at all (it is never reached), and when the predicate is
true they return exactly the unchecked variant's result. -/
theorem claim_C9_typed_field_access {V S : Type} (aM rM : Il2CppType → Bool)
    (field_set_value : FieldInfo → V → S → S) (field_get_value : FieldInfo → S → V)
    (fi : FieldInfo) (st : S) (val : V) :
    (aM fi.ty = false → FieldInfo.store aM field_set_value fi st val = PanicOr.panicked) ∧
    (aM fi.ty = false → ∀ g : FieldInfo → V → S → S,
      FieldInfo.store aM field_set_value fi st val = FieldInfo.store aM g fi st val) ∧
    (aM fi.ty = true →
      FieldInfo.store aM field_set_value fi st val =
        PanicOr.ok (store_unchecked field_set_value fi st val)) ∧
    (rM fi.ty = false → FieldInfo.load rM field_get_value fi st = PanicOr.panicked) ∧
    (rM fi.ty = false → ∀ g : FieldInfo → S → V,
      FieldInfo.load rM field_get_value fi st = FieldInfo.load rM g fi st) ∧
    (rM fi.ty = true →
      FieldInfo.load rM field_get_value fi st =
        PanicOr.ok (load_unchecked field_get_value fi st)) := by
  refine ⟨fun h => ?_, fun h g => ?_, fun h => ?_, fun h => ?_, fun h g => ?_, fun h => ?_⟩ <;>
    simp [FieldInfo.store, FieldInfo.load, h]

/-- Witness for claim C9 on a concrete Nat-valued field cell: a false
predicate panics the typed store and load, a true predicate makes them
agree with the unchecked variants. -/
theorem claim_C9_witness :
    FieldInfo.store noRM natSet xField 0 7 = PanicOr.panicked ∧
    FieldInfo.store anyRM natSet xField 0 7 = PanicOr.ok (store_unchecked natSet xField 0 7) ∧
    FieldInfo.load noRM natGet xField 3 = PanicOr.panicked ∧
    FieldInfo.load anyRM natGet xField 3 = PanicOr.ok (load_unchecked natGet xField 3) :=
  ⟨(claim_C9_typed_field_access noRM anyRM natSet natGet xField 0 7).1 rfl,
    (claim_C9_typed_field_access anyRM noRM natSet natGet xField 0 7).2.2.1 rfl,
    (claim_C9_typed_field_access anyRM noRM natSet natGet xField 3 7).2.2.2.1 rfl,
    (claim_C9_typed_field_access noRM anyRM natSet natGet xField 3 7).2.2.2.2.2 rfl⟩

/-- Claim C10: the Result return capability has exactly T's matches
predicate, converting from an actual runtime value always constructs the
Ok variant, and converting an Err value into the actual representation
panics at unwrap time instead of returning. -/
theorem claim_C10_result_return_channel {Act T E : Type} (tMatches : Il2CppType → Bool)
    (tFromActual : Act → T) (tIntoActual : T → Act) (ty : Il2CppType) (a : Act)
    (e : E) (t : T) :
    resultReturnMatches tMatches ty = tMatches ty ∧
    (resultFromActual tFromActual a : Except E T) = Except.ok (tFromActual a) ∧
    resultIntoActual tIntoActual (Except.error e : Except E T) = PanicOr.panicked ∧
    resultIntoActual tIntoActual (Except.ok t : Except E T) = PanicOr.ok (tIntoActual t) :=
  ⟨rfl, rfl, rfl, rfl⟩

end QuestHook
